import Mathlib

/-!
Verification of the benchmark aggregation and scaling-metric computation of the
Task-based-Lattice-Boltzmann repository (`src/visualization/evaluate_benchmark.py`,
with the identical helpers of `src/visualization/evaluate_benchmark_new.py` and the
tick-discovery loop of `src/weak_scaling.py`).

Modelling conventions:
* Python/numpy floating-point arithmetic is idealised as exact rational arithmetic (`ℚ`),
  except where the behaviour of division by zero is itself the property under study;
  there the numpy float value domain is modelled by `PyFloat` (finite / ±inf / NaN).
* `numpy.std` and the scipy chi-squared quantile function `chi2.ppf` (and `numpy.sqrt`)
  compute irrational values; they are passed as explicit function parameters, and every
  theorem about the surrounding code holds for all instantiations of those parameters.
* The global result array `numpy.zeros(shape=(5,3,3,len(core_ticks)))` is modelled as a
  total function `ℕ → ℕ → ℕ → ℕ → ℚ` initialised to `0`.
* CSV cells are modelled by `Cell`: an integer literal (accepted by Python `int` and
  `float`), a non-integer float literal (accepted by `float` only), or other text
  (rejected by both).
-/

namespace TBLB

/-- Access-pattern vocabulary, `evaluate_benchmark.py` line 19. -/
def ACCESS_PATTERNS : List String := ["collision", "stream", "bundle"]

/-- Algorithm-family vocabulary, `evaluate_benchmark.py` line 20. -/
def ALGORITHMS : List String := ["two_step", "swap", "two_lattice_framework", "two_lattice", "shift"]

/-- Contents vocabulary, `evaluate_benchmark.py` line 21. -/
def CONTENTS : List String := ["averages", "lower_bounds", "upper_bounds"]

/-- Index of the first occurrence of `x` in `l`, if any.  Models one iteration scheme
`for i in range(0, len(l)): if x == l[i]: idx = i; break`. -/
def firstIndexFrom {α : Type} [DecidableEq α] (x : α) : List α → Option Nat
  | [] => none
  | y :: ys => if x = y then some 0 else (firstIndexFrom x ys).map (· + 1)

/-- The index produced by the linear-scan loops of `set_result`/`get_result`
(`evaluate_benchmark.py` lines 110-127, 154-171): the loop variable is initialised to
`0` and only overwritten on the first match, so a missing key silently yields index `0`. -/
def indexOrZero {α : Type} [DecidableEq α] (x : α) (l : List α) : Nat :=
  (firstIndexFrom x l).getD 0

/-- The 4-dimensional result array `results` (algorithm × access pattern × content ×
core tick), `numpy.zeros(shape=(5,3,3,len(core_ticks)))` at line 278. -/
def Results : Type := Nat → Nat → Nat → Nat → ℚ

/-- The zero-initialised result array (`numpy.zeros`). -/
def zeroResults : Results := fun _ _ _ _ => 0

/-- Embedding of `set_result` (`evaluate_benchmark.py` lines 89-129): the three
string keys are turned into indices by linear scan with fallback `0`, then the cell
at those indices is assigned. -/
def set_result (results : Results) (algorithm access_pattern content : String)
    (core_tick : Nat) (value : ℚ) : Results :=
  fun a p c t =>
    if a = indexOrZero algorithm ALGORITHMS ∧ p = indexOrZero access_pattern ACCESS_PATTERNS ∧
       c = indexOrZero content CONTENTS ∧ t = core_tick then
      value
    else
      results a p c t

/-- Embedding of `get_result` (`evaluate_benchmark.py` lines 132-173). -/
def get_result (results : Results) (algorithm access_pattern content : String)
    (core_tick : Nat) : ℚ :=
  results (indexOrZero algorithm ALGORITHMS) (indexOrZero access_pattern ACCESS_PATTERNS)
    (indexOrZero content CONTENTS) core_tick

/-- Embedding of `determine_algorithm` (`evaluate_benchmark.py` lines 46-71).  The
Python function compares its parameter `algorithm_name` only in the first branch; every
other branch compares `line[0]`, where `line` is a global variable (the row currently
processed by the caller's loop).  That global read is made explicit as the second
parameter `line0`.  The `else` branch prints a diagnostic and falls off the end of the
function, returning Python `None`, modelled as `Option.none`. -/
def determine_algorithm (algorithm_name line0 : String) : Option (List String) :=
  if algorithm_name = "parallel_two_lattice" then some ["two_lattice"]
  else if line0 = "parallel_two_lattice_framework" then some ["two_lattice_framework"]
  else if line0 = "parallel_two_step" ∨ line0 = "sequential_two_step" then some ["two_step"]
  else if line0 = "parallel_swap" ∨ line0 = "sequential_swap" then some ["swap"]
  else if line0 = "parallel_shift" ∨ line0 = "sequential_shift" then some ["shift"]
  else if line0 = "sequential_two_lattice" then some ["two_lattice", "two_lattice_framework"]
  else none

/-- Model of one CSV cell: an integer literal (parsed by Python `int()` and `float()`),
a non-integer numeric literal (parsed by `float()` only), or other text (parsed by
neither; `int()`/`float()` raise `ValueError`). -/
inductive Cell : Type
  | intLit (z : ℤ)
  | floatLit (q : ℚ)
  | text (s : String)
deriving DecidableEq, Repr

/-- Python `float(cell)`: succeeds on numeric literals, raises (`none`) on other text. -/
def pyFloat : Cell → Option ℚ
  | Cell.intLit z => some (z : ℚ)
  | Cell.floatLit q => some q
  | Cell.text _ => none

/-- Python `int(cell)`: succeeds only on integer literals. -/
def pyInt : Cell → Option ℤ
  | Cell.intLit z => some z
  | Cell.floatLit _ => none
  | Cell.text _ => none

/-- Sequential conversion of a cell list through Python `float`, keeping order and
raising (`none`) at the first unparseable cell. -/
def float_cells : List Cell → Option (List ℚ)
  | [] => some []
  | c :: cs =>
    match pyFloat c with
    | none => none
    | some q => (float_cells cs).map (q :: ·)

/-- Embedding of `extract_runtimes_from_line` (`evaluate_benchmark.py` lines 73-86):
`for i in range(3, len(line)): result.append(float(line[i]))`.  The first
unparseable sample raises `ValueError` (`none`); a row with at most 3 columns yields
the empty runtime list without any error. -/
def extract_runtimes_from_line (line : List Cell) : Option (List ℚ) :=
  float_cells (line.drop 3)

/-- The per-row loading performed by the main script: `int(line[2])` (tick discovery
at line 260 and bucket lookup at line 289) together with
`extract_runtimes_from_line(line)` (line 285).  A missing third column is an
`IndexError` (`none`); an unparseable core count or sample is a `ValueError` (`none`).
No positivity check of the core count is performed anywhere. -/
def load_row (line : List Cell) : Option (ℤ × List ℚ) :=
  ((line.get? 2).bind pyInt).bind fun k =>
    (extract_runtimes_from_line line).map fun rs => (k, rs)

/-- Embedding of the core-tick discovery loop (`evaluate_benchmark.py` lines 258-266;
the identical loop is `weak_scaling.py` lines 20-28), parameterised by the running
maximum `m` (the variable `max_core_count`): a value strictly above the running maximum
is appended, an equal value is skipped, and a smaller value stops the loop (`break`). -/
def ticks_loop : List ℤ → ℤ → List ℤ
  | [], _ => []
  | c :: rest, m =>
    if m < c then c :: ticks_loop rest c
    else if c = m then ticks_loop rest m
    else []

/-- Core-tick discovery over the parsed `core_count` column of the data rows, with the
running maximum initialised to `0` (`max_core_count = 0`, line 258). -/
def determine_core_ticks (cores : List ℤ) : List ℤ :=
  ticks_loop cores 0

/-- The prefix of the rows actually scanned before the loop breaks: scanning stops at
the first value strictly below the running maximum. -/
def scanned_rows : List ℤ → ℤ → List ℤ
  | [], _ => []
  | c :: rest, m => if c < m then [] else c :: scanned_rows rest (max m c)

/-- The subsequence of values strictly above the given running maximum (each such value
becoming the new maximum). -/
def running_maxima : List ℤ → ℤ → List ℤ
  | [], _ => []
  | c :: rest, m => if m < c then c :: running_maxima rest c else running_maxima rest m

/-- The record maxima of a list: the values strictly greater than everything before
them (the first element is always a record).  Stated from the specification's words
"the sequence of distinct record maxima of the scanned prefix". -/
def record_maxima : List ℤ → Option ℤ → List ℤ
  | [], _ => []
  | c :: rest, none => c :: record_maxima rest (some c)
  | c :: rest, some m => if m < c then c :: record_maxima rest c else record_maxima rest (some m)

/-- A parsed data row: `line[0]`, `line[1]`, `int(line[2])` and the extracted runtimes. -/
structure PRow : Type where
  name : String
  pattern : String
  core : ℤ
  samples : List ℚ
deriving DecidableEq, Repr

/-- Exact-arithmetic model of `numpy.average` on the runtime list. -/
def npAverage (l : List ℚ) : ℚ :=
  l.sum / (l.length : ℚ)

/-- Embedding of `confidence_error` (`evaluate_benchmark.py` lines 26-42; identical in
`evaluate_benchmark_new.py`).  `numpy.sqrt` and the chi-squared quantile function
`scipy.stats.chi2.ppf` compute irrational values and are passed as parameters; `ppf q n`
stands for `chi2.ppf(q, df=n)`, so the degrees-of-freedom argument of every call is
visible in the definition. -/
def confidence_error (sqrtQ : ℚ → ℚ) (ppf : ℚ → ℕ → ℚ)
    (standard_deviation : ℚ) (n : ℕ) (confidence : ℚ) : ℚ × ℚ :=
  let alpha := 1 - confidence
  let lower_limit := standard_deviation * sqrtQ ((n : ℚ) / ppf (1 - alpha / 2) n)
  let upper_limit := standard_deviation * sqrtQ ((n : ℚ) / ppf (alpha / 2) n)
  (lower_limit, upper_limit)

/-- The confidence bounds as written in the specification (§4.2): at confidence level
`c` with `α = 1 - c`, lower `= σ·√(n / χ²_(1-α/2, n))` and upper `= σ·√(n / χ²_(α/2, n))`,
with degrees of freedom `n` (not `n - 1`). -/
def spec_chi_squared_bounds (sqrtQ : ℚ → ℚ) (ppf : ℚ → ℕ → ℚ)
    (sigma : ℚ) (n : ℕ) (c : ℚ) : ℚ × ℚ :=
  (sigma * sqrtQ ((n : ℚ) / ppf (1 - (1 - c) / 2) n),
   sigma * sqrtQ ((n : ℚ) / ppf ((1 - c) / 2) n))

/-- Embedding of one iteration of the aggregation loop (`evaluate_benchmark.py`
lines 281-296; the strong-scaling copy at lines 592-607 is identical): resolve the
algorithm name (the caller always passes `line[0]` while the global `line` is the same
row, hence `row.name` appears twice), locate the core tick (`core_ticks.index`, raising
`ValueError` if absent), store the row's average, then store the confidence bounds of
the row's standard deviation — all through `set_result`, so every store overwrites.
A `None` family list makes the following `for` loop raise `TypeError` (`none`).
`numpy.std` is the parameter `npStd`. -/
def process_line (sqrtQ : ℚ → ℚ) (ppf : ℚ → ℕ → ℚ) (npStd : List ℚ → ℚ)
    (core_ticks : List ℤ) (res : Results) (row : PRow) : Option Results :=
  match determine_algorithm row.name row.name with
  | none => none
  | some algs =>
    match firstIndexFrom row.core core_ticks with
    | none => none
    | some t =>
      let average := npAverage row.samples
      let res1 := algs.foldl
        (fun r a => set_result r a row.pattern "averages" t average) res
      let lu := confidence_error sqrtQ ppf (npStd row.samples) row.samples.length (95 / 100)
      let res2 := algs.foldl
        (fun r a =>
          set_result (set_result r a row.pattern "lower_bounds" t lu.1)
            a row.pattern "upper_bounds" t lu.2) res1
      some res2

/-- The whole aggregation loop over the data rows (header row already removed),
starting from the zero-initialised result array. -/
def assign_times (sqrtQ : ℚ → ℚ) (ppf : ℚ → ℕ → ℚ) (npStd : List ℚ → ℚ)
    (core_ticks : List ℤ) (rows : List PRow) : Option Results :=
  rows.foldlM (process_line sqrtQ ppf npStd core_ticks) zeroResults

/-- Value domain of a numpy float64 division: finite, ±infinity, or NaN. -/
inductive PyFloat : Type
  | finite (q : ℚ)
  | pinf
  | ninf
  | nan
deriving DecidableEq, Repr

/-- numpy float64 division.  Dividing a nonzero value by zero yields ±infinity and
`0.0/0.0` yields NaN; numpy emits only a `RuntimeWarning`, no exception is raised. -/
def npDiv (a b : ℚ) : PyFloat :=
  if b = 0 then
    if a = 0 then PyFloat.nan else if 0 < a then PyFloat.pinf else PyFloat.ninf
  else PyFloat.finite (a / b)

/-- Weak-scaling speedup entry (`evaluate_benchmark.py` lines 315-317):
`(core_count * avg(0)) / avg(i)` with `core_count = core_ticks[i]`. -/
def weak_speedup (res : Results) (core_ticks : List ℤ) (alg ap : String) (i : Nat) : PyFloat :=
  npDiv (((core_ticks.getD i 0 : ℤ) : ℚ) * get_result res alg ap "averages" 0)
    (get_result res alg ap "averages" i)

/-- Weak-scaling efficiency entry (`evaluate_benchmark.py` lines 311-313):
`avg(0) / avg(i)`. -/
def weak_efficiency (res : Results) (alg ap : String) (i : Nat) : PyFloat :=
  npDiv (get_result res alg ap "averages" 0) (get_result res alg ap "averages" i)

/-- Strong-scaling speedup entry (`evaluate_benchmark.py` lines 620-622):
`avg(0) / avg(i)`. -/
def strong_speedup (res : Results) (alg ap : String) (i : Nat) : PyFloat :=
  npDiv (get_result res alg ap "averages" 0) (get_result res alg ap "averages" i)

/-- Strong-scaling efficiency entry (`evaluate_benchmark.py` lines 624-626):
`avg(0) / (core_count * avg(i))`. -/
def strong_efficiency (res : Results) (core_ticks : List ℤ) (alg ap : String) (i : Nat) : PyFloat :=
  npDiv (get_result res alg ap "averages" 0)
    (((core_ticks.getD i 0 : ℤ) : ℚ) * get_result res alg ap "averages" i)

/-- Stable insertion into a descending-sorted list: the inserted element goes before
the first element whose key is not strictly greater.  This is the insertion step of a
stable descending sort, matching Python's stable `list.sort(key=..., reverse=True)`. -/
def insertDesc {α : Type} (key : α → ℚ) (x : α) : List α → List α
  | [] => [x]
  | y :: ys => if key x < key y then y :: insertDesc key x ys else x :: y :: ys

/-- Stable descending sort by a rational key (model of
`list.sort(key=lambda tuple: tuple[2], reverse=True)`). -/
def sortDescBy {α : Type} (key : α → ℚ) : List α → List α
  | [] => []
  | x :: xs => insertDesc key x (sortDescBy key xs)

/-- Sort key used by every ranking: the third tuple component
(`key = lambda tuple : tuple[2]`). -/
def tupleKey (t : String × String × ℚ) : ℚ := t.2.2

/-- The per-family candidate list (`evaluate_benchmark.py` lines 791-796): one tuple
`(family, access_pattern, metric)` per access pattern, built in the encounter order
collision, stream, bundle.  The metric table (`get_scaling_result` reads at the last
core tick) is abstracted as the function `metric`. -/
def family_candidates (metric : String → String → ℚ) (fam : String) :
    List (String × String × ℚ) :=
  ACCESS_PATTERNS.map fun ap => (fam, ap, metric fam ap)

/-- The best access pattern of one family: head of the stably descending-sorted
candidate list (`algorithm_ranking_*.sort(...); algorithm_ranking_*[0]`). -/
def family_best (metric : String → String → ℚ) (fam : String) : String × String × ℚ :=
  (sortDescBy tupleKey (family_candidates metric fam)).headD (fam, "", 0)

/-- The five per-family winners in the order they are listed into `all_minima`
(`evaluate_benchmark.py` lines 804). -/
def family_winners (metric : String → String → ℚ) : List (String × String × ℚ) :=
  [family_best metric "two_lattice", family_best metric "two_lattice_framework",
   family_best metric "two_step", family_best metric "swap", family_best metric "shift"]

/-- The global best and runner-up (`all_minima.sort(...); all_minima[0], all_minima[1]`,
`evaluate_benchmark.py` lines 805-807). -/
def best_configuration (metric : String → String → ℚ) :
    (String × String × ℚ) × (String × String × ℚ) :=
  let sorted := sortDescBy tupleKey (family_winners metric)
  (sorted.headD ("", "", 0), (sorted.drop 1).headD ("", "", 0))

/-- Dummy instantiation of `numpy.sqrt` for concrete evaluations; the theorems about
averages and control flow hold for every instantiation. -/
def sqrt0 : ℚ → ℚ := fun _ => 0

/-- Dummy instantiation of `chi2.ppf` for concrete evaluations. -/
def ppf0 : ℚ → ℕ → ℚ := fun _ _ => 0

/-- Dummy instantiation of `numpy.std` for concrete evaluations. -/
def std0 : List ℚ → ℚ := fun _ => 0

/-- Concrete result array with baseline average `10` at tick `0` for
(two_step, collision); the cell at tick `1` keeps its `numpy.zeros` value `0`. -/
def res_zero_current : Results :=
  set_result zeroResults "two_step" "collision" "averages" 0 10

/-- Concrete result array with averages `10` (tick 0) and `2` (tick 1) for
(swap, stream). -/
def demo_results : Results :=
  set_result (set_result zeroResults "swap" "stream" "averages" 0 10)
    "swap" "stream" "averages" 1 2

lemma firstIndexFrom_eq_none {α : Type} [DecidableEq α] {x : α} :
    ∀ {l : List α}, x ∉ l → firstIndexFrom x l = none := by
  intro l
  induction l with
  | nil => intro _; rfl
  | cons y ys ih =>
    intro h
    rw [List.mem_cons, not_or] at h
    rw [firstIndexFrom, if_neg h.1, ih h.2]
    rfl

lemma indexOrZero_of_not_mem {α : Type} [DecidableEq α] {x : α} {l : List α}
    (h : x ∉ l) : indexOrZero x l = 0 := by
  rw [indexOrZero, firstIndexFrom_eq_none h]
  rfl

/-- C4: the raw-name-to-family resolution is NOT a function of the algorithm name
alone: `determine_algorithm` compares the global `line[0]` in every branch but the
first, so two calls with the same `algorithm_name` can return different family lists
depending on the row the caller's loop currently holds.  With
`line[0] = "sequential_two_lattice"` (the situation at every call site, where the
argument is `line[0]` itself) the name resolves to the two families; with the global
set to `"parallel_two_step"` the same name resolves to `["two_step"]`; with an
unrelated global it resolves to nothing at all.  The conjuncts over the call-site
situation also record the intended mapping: the sequential two-lattice name yields
exactly two families and every other recognized name exactly one. -/
theorem determine_algorithm_depends_on_global_line :
    determine_algorithm "sequential_two_lattice" "sequential_two_lattice" =
      some ["two_lattice", "two_lattice_framework"] ∧
    determine_algorithm "sequential_two_lattice" "parallel_two_step" = some ["two_step"] ∧
    determine_algorithm "sequential_two_lattice" "unrelated" = none ∧
    determine_algorithm "parallel_two_lattice" "parallel_two_lattice" = some ["two_lattice"] ∧
    determine_algorithm "parallel_two_lattice_framework" "parallel_two_lattice_framework" =
      some ["two_lattice_framework"] ∧
    determine_algorithm "parallel_two_step" "parallel_two_step" = some ["two_step"] ∧
    determine_algorithm "sequential_two_step" "sequential_two_step" = some ["two_step"] ∧
    determine_algorithm "parallel_swap" "parallel_swap" = some ["swap"] ∧
    determine_algorithm "sequential_swap" "sequential_swap" = some ["swap"] ∧
    determine_algorithm "parallel_shift" "parallel_shift" = some ["shift"] ∧
    determine_algorithm "sequential_shift" "sequential_shift" = some ["shift"] := by
  refine ⟨rfl, rfl, rfl, rfl, rfl, rfl, rfl, rfl, rfl, rfl, rfl⟩

/-- C7: `confidence_error` computes exactly the chi-squared interval of the
specification: `(σ·√(n / χ²(1-α/2, n)), σ·√(n / χ²(α/2, n)))` with `α = 1 - confidence`
and degrees of freedom `n` (not `n - 1`); in particular at `σ = 2`, `n = 10`,
`confidence = 0.95` the quantile arguments are `0.975` and `0.025`. -/
theorem confidence_error_matches_spec (sqrtQ : ℚ → ℚ) (ppf : ℚ → ℕ → ℚ)
    (sigma : ℚ) (n : ℕ) (c : ℚ) :
    confidence_error sqrtQ ppf sigma n c = spec_chi_squared_bounds sqrtQ ppf sigma n c ∧
    confidence_error sqrtQ ppf 2 10 (95 / 100) =
      (2 * sqrtQ ((10 : ℚ) / ppf (39 / 40) 10), 2 * sqrtQ ((10 : ℚ) / ppf (1 / 40) 10)) := by
  constructor
  · rfl
  · show (2 * sqrtQ ((10 : ℚ) / ppf (1 - (1 - 95 / 100) / 2) 10),
        2 * sqrtQ ((10 : ℚ) / ppf ((1 - 95 / 100) / 2) 10)) = _
    norm_num

/-- C10: the string-to-index loops of `get_result` and `set_result` silently fall back
to index `0`: an unknown content string (such as `"average"`) reads the `"averages"`
entry, and an unknown algorithm or access-pattern string reads or writes the bucket of
the first element of the respective vocabulary (`"two_step"`, `"collision"`). -/
theorem get_set_result_index_fallback (res : Results) (alg ap content : String)
    (t : Nat) (v : ℚ) :
    get_result res alg ap "average" t = get_result res alg ap "averages" t ∧
    (alg ∉ ALGORITHMS →
      get_result res alg ap content t = get_result res "two_step" ap content t ∧
      set_result res alg ap content t v = set_result res "two_step" ap content t v) ∧
    (ap ∉ ACCESS_PATTERNS →
      get_result res alg ap content t = get_result res alg "collision" content t) ∧
    (content ∉ CONTENTS →
      get_result res alg ap content t = get_result res alg ap "averages" t) := by
  refine ⟨rfl, fun h => ?_, fun h => ?_, fun h => ?_⟩
  · have h0 : indexOrZero alg ALGORITHMS = 0 := indexOrZero_of_not_mem h
    constructor
    · rw [get_result, get_result, h0]
      rfl
    · funext a p c t'
      rw [set_result, set_result, h0]
      rfl
  · have h0 : indexOrZero ap ACCESS_PATTERNS = 0 := indexOrZero_of_not_mem h
    rw [get_result, get_result, h0]
    rfl
  · have h0 : indexOrZero content CONTENTS = 0 := indexOrZero_of_not_mem h
    rw [get_result, get_result, h0]
    rfl

/-- C10 witness: the fallback theorem applied at a concrete unknown algorithm name. -/
theorem get_set_result_index_fallback_witness :
    "bogus" ∉ ALGORITHMS ∧
    get_result zeroResults "bogus" "collision" "averages" 0 =
      get_result zeroResults "two_step" "collision" "averages" 0 :=
  ⟨by decide,
   ((get_set_result_index_fallback zeroResults "bogus" "collision" "averages" 0 0).2.1
     (by decide)).1⟩

/-- C3 counterexample: the scaling computation performs a plain numpy float division
and never raises; with baseline average `10` and current average `0` it produces the
value `+inf` (and on the all-zero array `0/0` produces NaN), refuting the claim that a
`DivisionUndefined` condition is raised instead of an infinite or NaN value. -/
theorem scaling_division_yields_infinity :
    strong_speedup res_zero_current "two_step" "collision" 1 = PyFloat.pinf ∧
    weak_speedup res_zero_current [1, 2] "two_step" "collision" 1 = PyFloat.pinf ∧
    strong_speedup zeroResults "two_step" "collision" 1 = PyFloat.nan := by
  refine ⟨by decide, ?_, by decide⟩
  show npDiv (((2 : ℤ) : ℚ) * get_result res_zero_current "two_step" "collision" "averages" 0)
      (get_result res_zero_current "two_step" "collision" "averages" 1) = PyFloat.pinf
  have h0 : get_result res_zero_current "two_step" "collision" "averages" 0 = 10 := by decide
  have h1 : get_result res_zero_current "two_step" "collision" "averages" 1 = 0 := by decide
  rw [h0, h1, npDiv]
  norm_num

/-- C3 amended: when the current average is zero the speedup computation does not fail;
it returns `+inf` for a positive numerator and NaN for `0/0` (the zero-initialised
cells of a missing baseline give the `0/0` case).  No error condition exists in the
code. -/
theorem scaling_division_by_zero (res : Results) (core_ticks : List ℤ) (alg ap : String)
    (i : Nat) (hz : get_result res alg ap "averages" i = 0) :
    (0 < get_result res alg ap "averages" 0 →
      strong_speedup res alg ap i = PyFloat.pinf) ∧
    (get_result res alg ap "averages" 0 = 0 →
      strong_speedup res alg ap i = PyFloat.nan) ∧
    (0 < ((core_ticks.getD i 0 : ℤ) : ℚ) * get_result res alg ap "averages" 0 →
      weak_speedup res core_ticks alg ap i = PyFloat.pinf) := by
  refine ⟨fun h => ?_, fun h => ?_, fun h => ?_⟩
  · rw [strong_speedup, hz, npDiv, if_pos rfl, if_neg h.ne', if_pos h]
  · rw [strong_speedup, hz, npDiv, if_pos rfl, if_pos h]
  · rw [weak_speedup, hz, npDiv, if_pos rfl, if_neg h.ne', if_pos h]

/-- C3 amended witness: the division-by-zero theorem applied at the concrete array
with baseline `10` and current average `0`. -/
theorem scaling_division_by_zero_witness :
    get_result res_zero_current "two_step" "collision" "averages" 1 = 0 ∧
    0 < get_result res_zero_current "two_step" "collision" "averages" 0 ∧
    strong_speedup res_zero_current "two_step" "collision" 1 = PyFloat.pinf :=
  ⟨by decide, by decide,
   (scaling_division_by_zero res_zero_current [1, 2] "two_step" "collision" 1
     (by decide)).1 (by decide)⟩

/-- C8 counterexample: the record loader does not reject a row with exactly three
columns (the sample list is silently empty), nor a zero or negative `core_count`;
it only fails on unparseable numeric fields. -/
theorem load_row_accepts_short_and_nonpositive_rows :
    load_row [Cell.text "sequential_swap", Cell.text "collision", Cell.intLit 4] =
      some (4, []) ∧
    load_row [Cell.text "a", Cell.text "b", Cell.intLit 0, Cell.floatLit 5] =
      some (0, [5]) ∧
    load_row [Cell.text "a", Cell.text "b", Cell.intLit (-2), Cell.floatLit 5] =
      some (-2, [5]) := by
  refine ⟨rfl, rfl, rfl⟩

lemma float_cells_eq_none :
    ∀ l : List Cell, float_cells l = none ↔ ∃ c ∈ l, pyFloat c = none := by
  intro l
  induction l with
  | nil => simp [float_cells]
  | cons c cs ih =>
    rw [float_cells]
    cases hc : pyFloat c with
    | none => simp [hc]
    | some q =>
      constructor
      · intro h
        have hm : float_cells cs = none := by
          cases hm : float_cells cs with
          | none => rfl
          | some rs => rw [hm] at h; exact absurd h (by simp)
        rcases ih.mp hm with ⟨d, hd, hdn⟩
        exact ⟨d, List.mem_cons_of_mem c hd, hdn⟩
      · rintro ⟨d, hd, hdn⟩
        rcases List.mem_cons.mp hd with h | h
        · rw [h] at hdn; rw [hc] at hdn; exact absurd hdn (by simp)
        · rw [ih.mpr ⟨d, h, hdn⟩]
          rfl

/-- C8 amended: `load_row` fails exactly when the third column is missing or not
parseable as an integer (Python `IndexError` / `ValueError` from `int(line[2])`), or
some sample column (index ≥ 3) is not parseable as a float (`ValueError` from
`float(line[i])`).  A three-column row loads with an empty sample list and no
positivity check is applied to `core_count`. -/
theorem load_row_failure_characterization (line : List Cell) :
    load_row line = none ↔
      ((line.get? 2).bind pyInt = none ∨ ∃ c ∈ line.drop 3, pyFloat c = none) := by
  rw [load_row, extract_runtimes_from_line]
  cases hk : (line.get? 2).bind pyInt with
  | none => simp
  | some k =>
    rw [Option.some_bind]
    rw [← float_cells_eq_none (line.drop 3)]
    cases hm : float_cells (line.drop 3) with
    | none => simp
    | some rs => simp

lemma ticks_loop_eq_running_maxima (l : List ℤ) :
    ∀ m, ticks_loop l m = running_maxima (scanned_rows l m) m := by
  induction l with
  | nil => intro m; rfl
  | cons c rest ih =>
    intro m
    by_cases h1 : m < c
    · have hnot : ¬ c < m := lt_asymm h1
      rw [ticks_loop, if_pos h1, scanned_rows, if_neg hnot, max_eq_right h1.le,
        running_maxima, if_pos h1, ih c]
    · by_cases h2 : c = m
      · subst h2
        rw [ticks_loop, if_neg h1, if_pos rfl, scanned_rows, if_neg (lt_irrefl c),
          max_self, running_maxima, if_neg h1, ih c]
      · have h3 : c < m := lt_of_le_of_ne (le_of_not_lt h1) h2
        rw [ticks_loop, if_neg h1, if_neg h2, scanned_rows, if_pos h3, running_maxima]

lemma running_maxima_eq_record_maxima (l : List ℤ) :
    ∀ m, running_maxima l m = record_maxima l (some m) := by
  induction l with
  | nil => intro m; rfl
  | cons c rest ih =>
    intro m
    by_cases h : m < c
    · rw [running_maxima, if_pos h, record_maxima, if_pos h, ih c]
    · rw [running_maxima, if_neg h, record_maxima, if_neg h, ih m]

lemma running_maxima_zero_of_pos (l : List ℤ) (h : ∀ x ∈ l, 0 < x) :
    running_maxima l 0 = record_maxima l none := by
  cases l with
  | nil => rfl
  | cons c rest =>
    have hc : (0 : ℤ) < c := h c (List.mem_cons_self c rest)
    rw [running_maxima, if_pos hc, record_maxima, running_maxima_eq_record_maxima]

lemma mem_scanned_rows : ∀ (l : List ℤ) (m x : ℤ), x ∈ scanned_rows l m → x ∈ l := by
  intro l
  induction l with
  | nil => intro m x h; exact absurd h (by simp [scanned_rows])
  | cons c rest ih =>
    intro m x h
    rw [scanned_rows] at h
    by_cases hlt : c < m
    · rw [if_pos hlt] at h; exact absurd h (by simp)
    · rw [if_neg hlt] at h
      rcases List.mem_cons.mp h with h' | h'
      · exact h' ▸ List.mem_cons_self c rest
      · exact List.mem_cons_of_mem c (ih _ x h')

lemma chain_ticks_loop (l : List ℤ) : ∀ m, List.Chain (· < ·) m (ticks_loop l m) := by
  induction l with
  | nil => intro m; exact List.Chain.nil
  | cons c rest ih =>
    intro m
    by_cases h1 : m < c
    · rw [ticks_loop, if_pos h1]
      exact List.Chain.cons h1 (ih c)
    · by_cases h2 : c = m
      · rw [ticks_loop, if_neg h1, if_pos h2]
        exact ih m
      · rw [ticks_loop, if_neg h1, if_neg h2]
        exact List.Chain.nil

/-- C6: for data rows with positive core counts (the format invariant), the tick
discovery loop produces exactly the sequence of record maxima of the scanned row
block (the rows up to, and excluding, the first core count below the running
maximum), and this tick list is strictly increasing and duplicate-free. -/
theorem core_tick_discovery (cores : List ℤ) (hpos : ∀ x ∈ cores, 0 < x) :
    determine_core_ticks cores = record_maxima (scanned_rows cores 0) none ∧
    List.Chain' (· < ·) (determine_core_ticks cores) ∧
    (determine_core_ticks cores).Nodup := by
  have hp : ∀ x ∈ scanned_rows cores 0, 0 < x :=
    fun x hx => hpos x (mem_scanned_rows cores 0 x hx)
  have heq : determine_core_ticks cores = record_maxima (scanned_rows cores 0) none := by
    rw [determine_core_ticks, ticks_loop_eq_running_maxima,
      running_maxima_zero_of_pos _ hp]
  have hchain : List.Chain (· < ·) (0 : ℤ) (determine_core_ticks cores) :=
    chain_ticks_loop cores 0
  have hpw : List.Pairwise (· < ·) ((0 : ℤ) :: determine_core_ticks cores) :=
    List.chain_iff_pairwise.mp hchain
  have hpw' : List.Pairwise (· < ·) (determine_core_ticks cores) :=
    List.Pairwise.of_cons hpw
  refine ⟨heq, List.chain'_iff_pairwise.mpr hpw', ?_⟩
  exact List.Pairwise.imp ne_of_lt hpw'

/-- C6 witness: the tick-discovery theorem applied at a concrete row sequence whose
core counts rise, repeat, drop and rise again. -/
theorem core_tick_discovery_witness :
    (∀ x ∈ ([1, 2, 4, 4, 2, 8] : List ℤ), 0 < x) ∧
    (determine_core_ticks [1, 2, 4, 4, 2, 8] =
        record_maxima (scanned_rows [1, 2, 4, 4, 2, 8] 0) none ∧
      List.Chain' (· < ·) (determine_core_ticks [1, 2, 4, 4, 2, 8]) ∧
      (determine_core_ticks [1, 2, 4, 4, 2, 8]).Nodup) :=
  ⟨by decide, core_tick_discovery [1, 2, 4, 4, 2, 8] (by decide)⟩

lemma mem_insertDesc {α : Type} (key : α → ℚ) (x : α) :
    ∀ (l : List α) (y : α), y ∈ insertDesc key x l ↔ y = x ∨ y ∈ l := by
  intro l
  induction l with
  | nil => intro y; simp [insertDesc]
  | cons z zs ih =>
    intro y
    rw [insertDesc]
    by_cases h : key x < key z
    · rw [if_pos h, List.mem_cons, ih y, List.mem_cons]
      tauto
    · rw [if_neg h, List.mem_cons, List.mem_cons]

lemma mem_sortDescBy {α : Type} (key : α → ℚ) :
    ∀ (l : List α) (y : α), y ∈ sortDescBy key l ↔ y ∈ l := by
  intro l
  induction l with
  | nil => intro y; rfl
  | cons x xs ih =>
    intro y
    rw [sortDescBy, mem_insertDesc, ih, List.mem_cons]

lemma pairwise_insertDesc {α : Type} (key : α → ℚ) (x : α) :
    ∀ (l : List α), l.Pairwise (fun a b => key b ≤ key a) →
      (insertDesc key x l).Pairwise (fun a b => key b ≤ key a) := by
  intro l
  induction l with
  | nil => intro _; exact List.pairwise_singleton _ x
  | cons z zs ih =>
    intro h
    rcases List.pairwise_cons.mp h with ⟨hz, hzs⟩
    rw [insertDesc]
    by_cases hk : key x < key z
    · rw [if_pos hk]
      refine List.pairwise_cons.mpr ⟨?_, ih hzs⟩
      intro y hy
      rcases (mem_insertDesc key x zs y).mp hy with h' | h'
      · exact h' ▸ hk.le
      · exact hz y h'
    · rw [if_neg hk]
      refine List.pairwise_cons.mpr ⟨?_, h⟩
      intro y hy
      rcases List.mem_cons.mp hy with h' | h'
      · exact h' ▸ le_of_not_lt hk
      · exact le_trans (hz y h') (le_of_not_lt hk)

lemma pairwise_sortDescBy {α : Type} (key : α → ℚ) :
    ∀ l : List α, (sortDescBy key l).Pairwise (fun a b => key b ≤ key a) := by
  intro l
  induction l with
  | nil => exact List.Pairwise.nil
  | cons x xs ih => exact pairwise_insertDesc key x _ ih

lemma length_insertDesc {α : Type} (key : α → ℚ) (x : α) :
    ∀ l : List α, (insertDesc key x l).length = l.length + 1 := by
  intro l
  induction l with
  | nil => rfl
  | cons z zs ih =>
    rw [insertDesc]
    by_cases h : key x < key z
    · rw [if_pos h, List.length_cons, ih, List.length_cons]
    · rw [if_neg h, List.length_cons, List.length_cons]

lemma length_sortDescBy {α : Type} (key : α → ℚ) :
    ∀ l : List α, (sortDescBy key l).length = l.length := by
  intro l
  induction l with
  | nil => rfl
  | cons x xs ih =>
    rw [sortDescBy, length_insertDesc, ih, List.length_cons]

lemma headD_mem {α : Type} (l : List α) (d : α) (h : l ≠ []) : l.headD d ∈ l := by
  cases l with
  | nil => exact absurd rfl h
  | cons x xs => exact List.mem_cons_self x xs

lemma sortDescBy_headD_max {α : Type} (key : α → ℚ) (l : List α) (d : α)
    (h : l ≠ []) : ∀ x ∈ l, key x ≤ key ((sortDescBy key l).headD d) := by
  intro x hx
  have hs : sortDescBy key l ≠ [] := by
    intro he
    have := length_sortDescBy key l
    rw [he] at this
    exact h (List.length_eq_zero.mp this.symm)
  cases hsort : sortDescBy key l with
  | nil => exact absurd hsort hs
  | cons m t =>
    have hxm : x ∈ m :: t := by
      rw [← hsort]
      exact (mem_sortDescBy key l x).mpr hx
    rcases List.mem_cons.mp hxm with h' | h'
    · rw [h']; simp
    · have hpw := pairwise_sortDescBy key l
      rw [hsort] at hpw
      have := (List.pairwise_cons.mp hpw).1 x h'
      simpa using this

lemma family_candidates_ne_nil (metric : String → String → ℚ) (fam : String) :
    family_candidates metric fam ≠ [] := by
  simp [family_candidates, ACCESS_PATTERNS]

lemma family_winners_ne_nil (metric : String → String → ℚ) :
    family_winners metric ≠ [] := by
  simp [family_winners]

/-- C9: the best-configuration ranking picks, within each family, a candidate from
the access-pattern list whose metric is maximal (the stable descending sort breaks
metric ties in the encounter order collision, stream, bundle), and across families
reports a global best whose metric dominates every per-family winner, the runner-up
being another of those winners.  With final-tick metrics collision 0.6, stream 0.9,
bundle 0.4 the per-family best is stream; with the tie collision 0.9, stream 0.9 the
per-family best is collision (encounter order). -/
theorem best_configuration_ranking :
    (∀ (metric : String → String → ℚ) (fam : String),
      family_best metric fam ∈ family_candidates metric fam ∧
      ∀ t ∈ family_candidates metric fam, tupleKey t ≤ tupleKey (family_best metric fam)) ∧
    (∀ metric : String → String → ℚ,
      (best_configuration metric).1 ∈ family_winners metric ∧
      (best_configuration metric).2 ∈ family_winners metric ∧
      ∀ w ∈ family_winners metric, tupleKey w ≤ tupleKey (best_configuration metric).1) ∧
    family_best
        (fun _ ap => if ap = "collision" then 6/10 else if ap = "stream" then 9/10 else 4/10)
        "two_lattice" = ("two_lattice", "stream", 9/10) ∧
    family_best
        (fun _ ap => if ap = "collision" then 9/10 else if ap = "stream" then 9/10 else 4/10)
        "two_lattice" = ("two_lattice", "collision", 9/10) := by
  refine ⟨fun metric fam => ⟨?_, ?_⟩, fun metric => ⟨?_, ?_, ?_⟩, ?_, ?_⟩
  · rw [family_best]
    have hne : sortDescBy tupleKey (family_candidates metric fam) ≠ [] := by
      intro he
      have hl := length_sortDescBy tupleKey (family_candidates metric fam)
      rw [he] at hl
      exact family_candidates_ne_nil metric fam (List.length_eq_zero.mp hl.symm)
    exact (mem_sortDescBy tupleKey _ _).mp (headD_mem _ _ hne)
  · exact fun t ht =>
      sortDescBy_headD_max tupleKey _ _ (family_candidates_ne_nil metric fam) t ht
  · rw [best_configuration]
    have hne : sortDescBy tupleKey (family_winners metric) ≠ [] := by
      intro he
      have hl := length_sortDescBy tupleKey (family_winners metric)
      rw [he] at hl
      exact family_winners_ne_nil metric (List.length_eq_zero.mp hl.symm)
    exact (mem_sortDescBy tupleKey _ _).mp (headD_mem _ _ hne)
  · rw [best_configuration]
    have hlen : (sortDescBy tupleKey (family_winners metric)).length = 5 := by
      rw [length_sortDescBy]
      rfl
    have hne : (sortDescBy tupleKey (family_winners metric)).drop 1 ≠ [] := by
      intro he
      have := List.length_drop 1 (sortDescBy tupleKey (family_winners metric))
      rw [he, hlen] at this
      exact absurd this.symm (by norm_num)
    have hmem := headD_mem _ (("", "", (0 : ℚ))) hne
    exact (mem_sortDescBy tupleKey _ _).mp
      (List.drop_subset 1 (sortDescBy tupleKey (family_winners metric)) hmem)
  · exact fun w hw =>
      sortDescBy_headD_max tupleKey _ _ (family_winners_ne_nil metric) w hw
  · simp only [family_best, family_candidates, ACCESS_PATTERNS, List.map,
      String.reduceEq, reduceIte]
    norm_num [sortDescBy, insertDesc, tupleKey]
  · simp only [family_best, family_candidates, ACCESS_PATTERNS, List.map,
      String.reduceEq, reduceIte]
    norm_num [sortDescBy, insertDesc, tupleKey]

/-- C1 counterexample: two raw rows that map into the same
(two_lattice, collision, core 1) bucket — one directly, one via the
sequential-two-lattice fan-out.  The final bucket average is `2`, the mean of the
samples of the last row alone, not `6`, the mean `(10+2)/2` of the union of the
samples; `set_result` overwrites, nothing is merged. -/
theorem bucket_average_overwritten :
    (assign_times sqrt0 ppf0 std0 [1]
      [⟨"parallel_two_lattice", "collision", 1, [10]⟩,
       ⟨"sequential_two_lattice", "collision", 1, [2]⟩]).map
      (fun res => get_result res "two_lattice" "collision" "averages" 0) = some 2 ∧
    npAverage ([10] ++ [2]) = 6 ∧ (2 : ℚ) ≠ 6 := by
  refine ⟨?_, by norm_num [npAverage], by norm_num⟩
  simp [assign_times, process_line, determine_algorithm, firstIndexFrom, set_result,
    get_result, indexOrZero, zeroResults, ALGORITHMS, ACCESS_PATTERNS, CONTENTS,
    String.reduceEq, reduceIte, List.foldlM, List.foldl, npAverage]

/-- C1 amended: when several raw records map into the same bucket, the bucket's
`average` is the arithmetic mean of the samples of the LAST such record in file
order — each `set_result` call overwrites the cell, so earlier records' samples do
not contribute.  Shown for the fan-out configuration of the claim, for every pair of
sample lists and every instantiation of the statistics functions. -/
theorem bucket_average_last_write_wins (sqrtQ : ℚ → ℚ) (ppf : ℚ → ℕ → ℚ)
    (npStd : List ℚ → ℚ) (s1 s2 : List ℚ) :
    (assign_times sqrtQ ppf npStd [1]
      [⟨"parallel_two_lattice", "collision", 1, s1⟩,
       ⟨"sequential_two_lattice", "collision", 1, s2⟩]).map
      (fun res => get_result res "two_lattice" "collision" "averages" 0) =
    some (npAverage s2) := by
  simp [assign_times, process_line, determine_algorithm, firstIndexFrom, set_result,
    get_result, indexOrZero, zeroResults, ALGORITHMS, ACCESS_PATTERNS, CONTENTS,
    String.reduceEq, reduceIte, List.foldlM, List.foldl]

/-- C2 counterexample: a record with an unknown algorithm name does not get skipped:
`determine_algorithm` returns `None` and the caller's `for current_algorithm in
algorithm` loop raises `TypeError`, aborting the run, so the valid record after it is
never processed (the result is an aborted pipeline, `none`, not a completed one). -/
theorem unknown_algorithm_aborts_run :
    determine_algorithm "unknown_algorithm" "unknown_algorithm" = none ∧
    assign_times sqrt0 ppf0 std0 [1]
      [⟨"unknown_algorithm", "collision", 1, [1]⟩,
       ⟨"parallel_swap", "collision", 1, [1]⟩] = none :=
  ⟨rfl, rfl⟩

lemma foldlM_process_line_none (sqrtQ : ℚ → ℚ) (ppf : ℚ → ℕ → ℚ)
    (npStd : List ℚ → ℚ) (core_ticks : List ℤ) (row : PRow) (suf : List PRow)
    (h : determine_algorithm row.name row.name = none) :
    ∀ (pre : List PRow) (init : Results),
      List.foldlM (process_line sqrtQ ppf npStd core_ticks) init (pre ++ row :: suf) =
        none := by
  intro pre
  induction pre with
  | nil =>
    intro init
    rw [List.nil_append, List.foldlM_cons, process_line, h]
    rfl
  | cons p pre ih =>
    intro init
    rw [List.cons_append, List.foldlM_cons]
    cases hp : process_line sqrtQ ppf npStd core_ticks init p with
    | none => rfl
    | some r => exact ih r

/-- C2 amended: a record whose algorithm name is unknown produces a diagnostic (the
`print` in `determine_algorithm`'s else branch) but is not skipped: the function
returns `None`, iterating over it raises `TypeError`, and the whole aggregation run
aborts, whatever records precede or follow the offending one. -/
theorem unknown_algorithm_is_fatal (sqrtQ : ℚ → ℚ) (ppf : ℚ → ℕ → ℚ)
    (npStd : List ℚ → ℚ) (core_ticks : List ℤ) (pre suf : List PRow) (row : PRow)
    (h : determine_algorithm row.name row.name = none) :
    assign_times sqrtQ ppf npStd core_ticks (pre ++ row :: suf) = none := by
  rw [assign_times]
  exact foldlM_process_line_none sqrtQ ppf npStd core_ticks row suf h pre zeroResults

/-- C2 amended witness: the fatality theorem applied to a concrete run with one valid
record before and one after the unknown-name record. -/
theorem unknown_algorithm_is_fatal_witness :
    determine_algorithm "mystery" "mystery" = none ∧
    assign_times sqrt0 ppf0 std0 [1]
      ([⟨"parallel_shift", "collision", 1, [3]⟩] ++
        (⟨"mystery", "collision", 1, [1]⟩ : PRow) ::
          [⟨"parallel_swap", "collision", 1, [1]⟩]) = none :=
  ⟨rfl,
   unknown_algorithm_is_fatal sqrt0 ppf0 std0 [1]
     [⟨"parallel_shift", "collision", 1, [3]⟩]
     [⟨"parallel_swap", "collision", 1, [1]⟩]
     ⟨"mystery", "collision", 1, [1]⟩ rfl⟩

/-- C5: for positive averages and a positive core tick, the four scaling entries
follow the mode-specific formulas: weak speedup `core·avg(0)/avg(i)`, strong speedup
`avg(0)/avg(i)`, and in both modes efficiency equals the corresponding speedup divided
by the core count at tick `i`; consequently at tick index 0 the strong speedup is
exactly `1` and the weak speedup equals the baseline core count. -/
theorem scaling_metric_formulas (res : Results) (core_ticks : List ℤ) (alg ap : String)
    (i : Nat) (h0 : 0 < get_result res alg ap "averages" 0)
    (hi : 0 < get_result res alg ap "averages" i)
    (hc : 0 < core_ticks.getD i 0) :
    weak_speedup res core_ticks alg ap i =
      PyFloat.finite (((core_ticks.getD i 0 : ℤ) : ℚ) * get_result res alg ap "averages" 0 /
        get_result res alg ap "averages" i) ∧
    strong_speedup res alg ap i =
      PyFloat.finite (get_result res alg ap "averages" 0 /
        get_result res alg ap "averages" i) ∧
    weak_efficiency res alg ap i =
      PyFloat.finite ((((core_ticks.getD i 0 : ℤ) : ℚ) * get_result res alg ap "averages" 0 /
        get_result res alg ap "averages" i) / ((core_ticks.getD i 0 : ℤ) : ℚ)) ∧
    strong_efficiency res core_ticks alg ap i =
      PyFloat.finite ((get_result res alg ap "averages" 0 /
        get_result res alg ap "averages" i) / ((core_ticks.getD i 0 : ℤ) : ℚ)) ∧
    (i = 0 →
      strong_speedup res alg ap i = PyFloat.finite 1 ∧
      weak_speedup res core_ticks alg ap i =
        PyFloat.finite ((core_ticks.getD 0 0 : ℤ) : ℚ)) := by
  have hcq : (0 : ℚ) < ((core_ticks.getD i 0 : ℤ) : ℚ) := by
    exact_mod_cast hc
  have hi' : get_result res alg ap "averages" i ≠ 0 := hi.ne'
  have h0' : get_result res alg ap "averages" 0 ≠ 0 := h0.ne'
  refine ⟨?_, ?_, ?_, ?_, fun h => ?_⟩
  · rw [weak_speedup, npDiv, if_neg hi']
  · rw [strong_speedup, npDiv, if_neg hi']
  · rw [weak_efficiency, npDiv, if_neg hi', mul_div_assoc,
      mul_div_cancel_left₀ _ hcq.ne']
  · rw [strong_efficiency, npDiv,
      if_neg (mul_ne_zero hcq.ne' hi'), div_div,
      mul_comm (get_result res alg ap "averages" i) (((core_ticks.getD i 0 : ℤ) : ℚ))]
  · subst h
    constructor
    · rw [strong_speedup, npDiv, if_neg hi', div_self h0']
    · rw [weak_speedup, npDiv, if_neg hi', mul_div_assoc, div_self h0', mul_one]

/-- C5 witness: the formula theorem applied at a concrete result array with averages
`10` (tick 0, core 1) and `2` (tick 1, core 4) for (swap, stream). -/
theorem scaling_metric_formulas_witness :
    (0 < get_result demo_results "swap" "stream" "averages" 0 ∧
      0 < get_result demo_results "swap" "stream" "averages" 1 ∧
      0 < ([1, 4] : List ℤ).getD 1 0) ∧
    strong_speedup demo_results "swap" "stream" 1 =
      PyFloat.finite (get_result demo_results "swap" "stream" "averages" 0 /
        get_result demo_results "swap" "stream" "averages" 1) :=
  ⟨⟨by decide, by decide, by decide⟩,
   (scaling_metric_formulas demo_results [1, 4] "swap" "stream" 1
     (by decide) (by decide) (by decide)).2.1⟩

/-- C9 witness: the ranking theorem applied at a concrete metric table and a concrete
member of the candidate list. -/
theorem best_configuration_ranking_witness :
    ("swap", "collision", (1 : ℚ)) ∈ family_candidates (fun _ _ => 1) "swap" ∧
    tupleKey ("swap", "collision", (1 : ℚ)) ≤
      tupleKey (family_best (fun _ _ => 1) "swap") :=
  ⟨by simp [family_candidates, ACCESS_PATTERNS],
   (best_configuration_ranking.1 (fun _ _ => 1) "swap").2 ("swap", "collision", 1)
     (by simp [family_candidates, ACCESS_PATTERNS])⟩

/-- C8 amended witness: the failure characterization applied at a concrete one-column
row, whose missing third column makes the loader fail. -/
theorem load_row_failure_characterization_witness :
    load_row [Cell.text "lonely"] = none :=
  (load_row_failure_characterization [Cell.text "lonely"]).mpr (Or.inl rfl)

end TBLB
